import Mathlib

/-!
Verification of the request-to-invocation translation layer of the media
downloader/converter service (`src/main.py`).

The embedding models:
- the `DownloadRequest` / `ConvertRequest` pydantic models,
- the argument-list builders inside `yt_dlp_download` and `ffmpeg_convert`,
- the process runner `runCmd` (the child process outcome is an input),
- the artifact-locator loop over the `os.walk` stream (the stream is an
  input, since `os.walk` itself is standard-library code),
- the best-effort outcome recording, as an explicit effect trace.

Python truthiness of `Optional` fields (`None`, `""` and `[]` are falsy) is
modelled explicitly wherever the source relies on it.
-/

set_option autoImplicit false

/-- The closed set of media formats accepted by both request models
(`Literal["mp3","mp4","wav","mkv","webm","m4a","opus"]`). -/
inductive MediaFormat where
  | mp3 | mp4 | wav | mkv | webm | m4a | opus
deriving DecidableEq, Repr

/-- The string literal each `MediaFormat` value stands for. -/
def MediaFormat.toStr : MediaFormat → String
  | .mp3 => "mp3"
  | .mp4 => "mp4"
  | .wav => "wav"
  | .mkv => "mkv"
  | .webm => "webm"
  | .m4a => "m4a"
  | .opus => "opus"

/-- Python `str.startswith`. -/
def strStartsWith (s t : String) : Bool :=
  s.toList.take t.toList.length == t.toList

/-- Python `str.endswith` for a single suffix. -/
def strEndsWith (s t : String) : Bool :=
  decide (t.toList.length ≤ s.toList.length)
    && (s.toList.drop (s.toList.length - t.toList.length) == t.toList)

/-- Python `posixpath.join` restricted to two components: an absolute second
component replaces the first; otherwise a separator is inserted unless the
first component is empty or already ends with one. -/
def osPathJoin (a b : String) : String :=
  if strStartsWith b "/" then b
  else if a = "" ∨ strEndsWith a "/" then a ++ b
  else a ++ "/" ++ b

/-- `DownloadRequest` (src/main.py, lines 28-37), with pydantic defaults. -/
structure DownloadRequest where
  url : String
  format : MediaFormat := .mp4
  quality : Option String := some "best"
  subtitles : Bool := false
  subtitle_langs : Option (List String) := some ["en"]
  embed_subs : Bool := false
  audio_only : Bool := false
  filename_template : Option String := none
  ffmpeg_args : Option (List String) := none
deriving Repr

/-- Output template (src/main.py, lines 96-100): `if req.filename_template:`
uses Python truthiness, so `None` and `""` both fall back to the default
yt-dlp pattern. -/
def outtmpl (outDir : String) (tmpl : Option String) : String :=
  match tmpl with
  | some t => if t = "" then osPathJoin outDir "%(title)s-%(id)s.%(ext)s" else osPathJoin outDir t
  | none => osPathJoin outDir "%(title)s-%(id)s.%(ext)s"

/-- `req.subtitle_langs or ["en"]` (src/main.py, line 121): Python `or`
replaces both `None` and the empty list by `["en"]`. -/
def effectiveLangs : Option (List String) → List String
  | some (l :: ls) => l :: ls
  | some [] => ["en"]
  | none => ["en"]

/-- Base of the yt-dlp argument list (src/main.py, lines 102-107). -/
def baseArgs (req : DownloadRequest) (outDir : String) : List String :=
  ["yt-dlp", req.url, "-o", outtmpl outDir req.filename_template,
   "--merge-output-format", req.format.toStr]

/-- Quality/audio branch (src/main.py, lines 109-117): audio-only first;
else a truthy quality outside `("best", "worst")` is passed verbatim to
`-f`; else the composite default selector. -/
def qualityArgs (req : DownloadRequest) : List String :=
  if req.audio_only then
    ["-x", "--audio-format", req.format.toStr]
  else
    match req.quality with
    | some q =>
        if q = "" ∨ q = "best" ∨ q = "worst" then ["-f", "bestvideo+bestaudio/best"]
        else ["-f", q]
    | none => ["-f", "bestvideo+bestaudio/best"]

/-- Subtitle branch (src/main.py, lines 119-124). -/
def subtitleArgs (req : DownloadRequest) : List String :=
  if req.subtitles then
    ["--write-subs", "--sub-langs", String.intercalate "," (effectiveLangs req.subtitle_langs)]
      ++ (if req.embed_subs then ["--embed-subs"] else [])
  else []

/-- `--ffmpeg-location` flag driven by the `FFMPEG_PATH` environment value
(src/main.py, lines 126-128); `os.environ.get` truthiness makes an unset or
empty variable a no-op. -/
def ffmpegLocationArgs : Option String → List String
  | some p => if p = "" then [] else ["--ffmpeg-location", p]
  | none => []

/-- SponsorBlock flags driven by the `ENABLE_SPONSORBLOCK` environment value
(src/main.py, lines 130-132). -/
def sponsorblockArgs (v : Option String) : List String :=
  if (v.getD "false").toLower = "true" then ["--sponsorblock-remove", "sponsor,intro,outro"]
  else []

/-- The full yt-dlp argument list built by `yt_dlp_download`
(src/main.py, lines 102-132), as a function of the request, the session
workspace directory and the two environment values. -/
def buildFetchArgs (req : DownloadRequest) (outDir : String) (fp se : Option String) :
    List String :=
  baseArgs req outDir ++ qualityArgs req ++ subtitleArgs req
    ++ ffmpegLocationArgs fp ++ sponsorblockArgs se

/-- Outcome of the spawned child process: exit status and the combined
stdout/stderr stream (`stderr=subprocess.STDOUT`). -/
structure ProcOutcome where
  returncode : Nat
  output : String
deriving DecidableEq, Repr

/-- Python `s[-n:]`: the suffix of at most `n` characters. -/
def lastChars (n : Nat) (s : String) : String :=
  String.mk (s.toList.drop (s.toList.length - n))

/-- Python `repr` of a string, for strings without quotes, backslashes or
control characters (the only shapes this development evaluates it on). -/
def pyStrRepr (s : String) : String := "'" ++ s ++ "'"

/-- Python `str` of a list of strings. -/
def pyListRepr (l : List String) : String :=
  "[" ++ String.intercalate ", " (l.map pyStrRepr) ++ "]"

/-- `str(e)` for `subprocess.CalledProcessError` with a positive exit
status (termination by signal is not modelled; process exit statuses are
non-negative). -/
def calledProcessErrorStr (cmd : List String) (returncode : Nat) : String :=
  "Command '" ++ pyListRepr cmd ++ "' returned non-zero exit status "
    ++ toString returncode ++ "."

/-- `runCmd` (src/main.py, lines 83-88): on a zero exit the full combined
output is returned; on a non-zero exit an error is raised whose detail is
`e.stdout[-2000:] if e.stdout else str(e)` — the last 2000 characters when
the captured output is truthy (non-empty), the exception string otherwise. -/
def runCmd (cmd : List String) (r : ProcOutcome) : Except String String :=
  if r.returncode = 0 then Except.ok r.output
  else Except.error
    (if r.output = "" then calledProcessErrorStr cmd r.returncode
     else lastChars 2000 r.output)

/-- The media extensions recognised by the artifact scan
(src/main.py, line 141). -/
def mediaExts : List String := [".mp4", ".mp3", ".mkv", ".webm", ".m4a", ".opus", ".wav"]

/-- `f.endswith((".mp4", ...))` (src/main.py, line 141). -/
def isMediaFile (f : String) : Bool := mediaExts.any (fun e => strEndsWith f e)

/-- The double loop of src/main.py lines 138-145 over the `os.walk` stream:
the first media file, joined onto its directory, in walk order. Each stream
entry is a `(root, files)` pair as yielded by `os.walk`. -/
def firstMedia : List (String × List String) → Option String
  | [] => none
  | (root, files) :: rest =>
      match files.find? isMediaFile with
      | some f => some (osPathJoin root f)
      | none => firstMedia rest

/-- Artifact locator (src/main.py, lines 136-149): the first media file in
walk order, or the workspace directory itself when none is found. Total:
it never fails. -/
def locateArtifact (outDir : String) (walkEntries : List (String × List String)) : String :=
  match firstMedia walkEntries with
  | some p => p
  | none => outDir

/-- `HTTPException` as raised by the service: status code and detail. -/
structure HTTPException where
  status_code : Nat
  detail : String
deriving DecidableEq, Repr

/-- Observable side effects of one request: spawning the external process,
and the attempt to write an outcome record (its `succeeded` flag records
what the persistence sink did; the code never inspects it). -/
inductive Effect where
  | runProcess (cmd : List String)
  | recordAttempt (collection : String) (succeeded : Bool)
deriving DecidableEq, Repr

/-- Number of outcome-record attempts in an effect trace. -/
def countRecords (trace : List Effect) : Nat :=
  trace.countP fun e =>
    match e with
    | .recordAttempt _ _ => true
    | .runProcess _ => false

/-- `yt_dlp_download` (src/main.py, lines 91-167) after workspace creation:
builds the argument list, runs the process (outcome supplied as input), on
success locates the artifact over the supplied `os.walk` stream, attempts
the best-effort history record (`try ... except Exception: pass`), and
returns the chosen path. A process failure propagates as a 500 before any
record is attempted. -/
def yt_dlp_download (outDir : String) (fp se : Option String) (proc : ProcOutcome)
    (recorderOk : Bool) (walkEntries : List (String × List String))
    (req : DownloadRequest) : Except HTTPException String × List Effect :=
  let args := buildFetchArgs req outDir fp se
  match runCmd args proc with
  | Except.error d => (Except.error ⟨500, d⟩, [Effect.runProcess args])
  | Except.ok _ =>
      let chosen := locateArtifact outDir walkEntries
      (Except.ok chosen, [Effect.runProcess args, Effect.recordAttempt "history" recorderOk])

/-- `ConvertRequest` (src/main.py, lines 176-181). -/
structure ConvertRequest where
  input_path : String
  output_format : MediaFormat
  start : Option String := none
  «end» : Option String := none
  extra_args : Option (List String) := none
deriving Repr

/-- Index of the last occurrence of `c`, if any. -/
def lastIdx (c : Char) : List Char → Option Nat
  | [] => none
  | x :: xs =>
      match lastIdx c xs with
      | some i => some (i + 1)
      | none => if x = c then some 0 else none

/-- The root part of Python `os.path.splitext` (posix): split at the last
dot only when it lies after the last separator and the basename has a
non-dot character before it (so leading dots of the basename never start an
extension). -/
def splitextBase (s : String) : String :=
  let l := s.toList
  match lastIdx '.' l with
  | none => s
  | some dot =>
      let sepSucc :=
        match lastIdx '/' l with
        | none => 0
        | some sep => sep + 1
      if sepSucc ≤ dot ∧ ((l.take dot).drop sepSucc).any (fun c => c ≠ '.') then
        String.mk (l.take dot)
      else s

/-- Output path of `ffmpeg_convert` (src/main.py, lines 188-189). -/
def convertOutPath (req : ConvertRequest) : String :=
  splitextBase req.input_path ++ "_conv." ++ req.output_format.toStr

/-- The ffmpeg command built by `ffmpeg_convert` (src/main.py, lines
191-198); `if req.start:` / `if req.end:` / `if req.extra_args:` use Python
truthiness. -/
def convertCmd (req : ConvertRequest) (out_path : String) : List String :=
  ["ffmpeg", "-y", "-i", req.input_path]
    ++ (match req.start with
        | some s => if s = "" then [] else ["-ss", s]
        | none => [])
    ++ (match req.«end» with
        | some e => if e = "" then [] else ["-to", e]
        | none => [])
    ++ (match req.extra_args with
        | some xs => xs
        | none => [])
    ++ [out_path]

/-- `ffmpeg_convert` (src/main.py, lines 184-211): existence check first
(404 with no side effects on failure), then the process runs, then the
best-effort conversions record, then the output path is returned. -/
def ffmpeg_convert (fileExists : String → Bool) (proc : ProcOutcome) (recorderOk : Bool)
    (req : ConvertRequest) : Except HTTPException String × List Effect :=
  if fileExists req.input_path then
    let out_path := convertOutPath req
    let cmd := convertCmd req out_path
    match runCmd cmd proc with
    | Except.error d => (Except.error ⟨500, d⟩, [Effect.runProcess cmd])
    | Except.ok _ =>
        (Except.ok out_path, [Effect.runProcess cmd, Effect.recordAttempt "conversions" recorderOk])
  else
    (Except.error ⟨404, "Input file not found"⟩, [])

/-! ### Helper lemmas -/

theorem MediaFormat.toStr_ne_flags (f : MediaFormat) :
    f.toStr ≠ "-f" ∧ f.toStr ≠ "--write-subs" ∧ f.toStr ≠ "--sub-langs"
      ∧ f.toStr ≠ "--embed-subs" := by
  cases f <;> exact ⟨by decide, by decide, by decide, by decide⟩

theorem mem_baseArgs {x : String} {req : DownloadRequest} {outDir : String}
    (h : x ∈ baseArgs req outDir) :
    x = "yt-dlp" ∨ x = req.url ∨ x = "-o" ∨ x = outtmpl outDir req.filename_template
      ∨ x = "--merge-output-format" ∨ x = req.format.toStr := by
  simpa [baseArgs] using h

theorem mem_qualityArgs {x : String} {req : DownloadRequest} (h : x ∈ qualityArgs req) :
    x = "-x" ∨ x = "--audio-format" ∨ x = req.format.toStr ∨ x = "-f"
      ∨ x = "bestvideo+bestaudio/best" ∨ req.quality = some x := by
  unfold qualityArgs at h
  cases ha : req.audio_only <;> rw [ha] at h
  · cases hq : req.quality <;> rw [hq] at h
    · simp at h
      tauto
    · rename_i q
      by_cases hc : q = "" ∨ q = "best" ∨ q = "worst" <;> simp [hc] at h
      · tauto
      · rcases h with h | h
        · tauto
        · refine Or.inr (Or.inr (Or.inr (Or.inr (Or.inr ?_))))
          rw [h]
  · simp at h
    tauto

theorem mem_subtitleArgs {x : String} {req : DownloadRequest} (h : x ∈ subtitleArgs req) :
    x = "--write-subs" ∨ x = "--sub-langs"
      ∨ x = String.intercalate "," (effectiveLangs req.subtitle_langs)
      ∨ x = "--embed-subs" := by
  unfold subtitleArgs at h
  cases hs : req.subtitles <;> cases he : req.embed_subs <;> simp [hs, he] at h <;> tauto

theorem mem_ffmpegLocationArgs {x : String} {v : Option String}
    (h : x ∈ ffmpegLocationArgs v) :
    x = "--ffmpeg-location" ∨ v = some x := by
  unfold ffmpegLocationArgs at h
  cases v with
  | none => simp at h
  | some p =>
      by_cases hp : p = "" <;> simp [hp] at h
      · rcases h with h | h
        · tauto
        · exact Or.inr (by rw [h])

theorem mem_sponsorblockArgs {x : String} {v : Option String}
    (h : x ∈ sponsorblockArgs v) :
    x = "--sponsorblock-remove" ∨ x = "sponsor,intro,outro" := by
  unfold sponsorblockArgs at h
  by_cases hv : (v.getD "false").toLower = "true" <;> simp [hv] at h
  tauto

theorem mem_buildFetchArgs_elim {x : String} {req : DownloadRequest} {outDir : String}
    {fp se : Option String} (h : x ∈ buildFetchArgs req outDir fp se) :
    x ∈ baseArgs req outDir ∨ x ∈ qualityArgs req ∨ x ∈ subtitleArgs req
      ∨ x ∈ ffmpegLocationArgs fp ∨ x ∈ sponsorblockArgs se := by
  simpa [buildFetchArgs, List.mem_append, or_assoc] using h

theorem qualityArgs_of_audio {req : DownloadRequest} (hao : req.audio_only = true) :
    qualityArgs req = ["-x", "--audio-format", req.format.toStr] := by
  unfold qualityArgs
  rw [hao]
  simp

theorem qualityArgs_of_default {req : DownloadRequest} (hao : req.audio_only = false)
    (hq : req.quality = some "best" ∨ req.quality = some "worst" ∨ req.quality = none) :
    qualityArgs req = ["-f", "bestvideo+bestaudio/best"] := by
  unfold qualityArgs
  rw [hao]
  rcases hq with h | h | h <;> rw [h] <;> simp

theorem subtitleArgs_of_off {req : DownloadRequest} (hs : req.subtitles = false) :
    subtitleArgs req = [] := by
  unfold subtitleArgs
  rw [hs]
  simp

/-! ### Claims -/

/-- C1: for every request with `audioOnly = false` and quality `"best"`,
`"worst"` or absent, the built yt-dlp argument list contains the adjacent
pair `-f bestvideo+bestaudio/best`; `"worst"` is not special-cased and
yields the same high-quality default selector as `"best"`. -/
theorem fetch_default_quality_selector (req : DownloadRequest) (outDir : String)
    (fp se : Option String) (hao : req.audio_only = false)
    (hq : req.quality = some "best" ∨ req.quality = some "worst" ∨ req.quality = none) :
    ∃ l₁ l₂, buildFetchArgs req outDir fp se
      = l₁ ++ ["-f", "bestvideo+bestaudio/best"] ++ l₂ := by
  refine ⟨baseArgs req outDir,
    subtitleArgs req ++ ffmpegLocationArgs fp ++ sponsorblockArgs se, ?_⟩
  rw [buildFetchArgs, qualityArgs_of_default hao hq]
  simp

/-- Witness for C1: the spec's end-to-end scenario request
`{url: "http://x/video", format: "mp4", quality: "best"}`. -/
theorem fetch_default_quality_selector_witness :
    ∃ l₁ l₂, buildFetchArgs
        ⟨"http://x/video", .mp4, some "best", false, some ["en"], false, false, none, none⟩
        "/tmp/downloads/s" none none
      = l₁ ++ ["-f", "bestvideo+bestaudio/best"] ++ l₂ :=
  fetch_default_quality_selector
    ⟨"http://x/video", .mp4, some "best", false, some ["en"], false, false, none, none⟩
    "/tmp/downloads/s" none none rfl (Or.inl rfl)

/-- C4: the URL appears verbatim as the second element of the built
argument list — one discrete token, never concatenated into another; the
whole invocation is a discrete argument vector (`List String`) handed to
the runner, with no shell string anywhere in the model. -/
theorem fetch_url_verbatim_token (req : DownloadRequest) (outDir : String)
    (fp se : Option String) :
    (buildFetchArgs req outDir fp se).get? 1 = some req.url
      ∧ req.url ∈ buildFetchArgs req outDir fp se := by
  constructor
  · rfl
  · simp [buildFetchArgs, baseArgs]

/-- C10: with `subtitles = true` and `subtitleLangs` equal to `None` or the
empty list, the builder re-applies the `["en"]` default, so the built list
still contains the adjacent pair `--sub-langs en`. -/
theorem fetch_subtitle_default_lang (req : DownloadRequest) (outDir : String)
    (fp se : Option String) (hs : req.subtitles = true)
    (hl : req.subtitle_langs = none ∨ req.subtitle_langs = some []) :
    ∃ l₁ l₂, buildFetchArgs req outDir fp se = l₁ ++ ["--sub-langs", "en"] ++ l₂ := by
  have he : String.intercalate "," (effectiveLangs req.subtitle_langs) = "en" := by
    rcases hl with h | h <;> rw [h] <;> rfl
  refine ⟨baseArgs req outDir ++ qualityArgs req ++ ["--write-subs"],
    (if req.embed_subs then ["--embed-subs"] else [])
      ++ ffmpegLocationArgs fp ++ sponsorblockArgs se, ?_⟩
  rw [buildFetchArgs, subtitleArgs, hs]
  rw [he]
  simp

/-- Witness for C10: subtitles on, explicit empty language list. -/
theorem fetch_subtitle_default_lang_witness :
    ∃ l₁ l₂, buildFetchArgs
        ⟨"http://x/v", .mp4, some "best", true, some [], false, false, none, none⟩
        "d" none none
      = l₁ ++ ["--sub-langs", "en"] ++ l₂ :=
  fetch_subtitle_default_lang
    ⟨"http://x/v", .mp4, some "best", true, some [], false, false, none, none⟩
    "d" none none rfl (Or.inr rfl)

/-- C2: with `audioOnly = true` the built list carries the adjacent tokens
`-x --audio-format <format>` and no `-f` selector, whatever the quality
string is — the audio-only branch wins. The disequality hypotheses only
rule out the caller smuggling the literal token `"-f"` in through a free
string field (URL, output template, joined subtitle languages, tool path). -/
theorem fetch_audio_only_precedence (req : DownloadRequest) (outDir : String)
    (fp se : Option String) (hao : req.audio_only = true)
    (hurl : req.url ≠ "-f")
    (htmpl : outtmpl outDir req.filename_template ≠ "-f")
    (hlang : String.intercalate "," (effectiveLangs req.subtitle_langs) ≠ "-f")
    (hfp : fp ≠ some "-f") :
    (∃ l₁ l₂, buildFetchArgs req outDir fp se
        = l₁ ++ ["-x", "--audio-format", req.format.toStr] ++ l₂)
      ∧ "-f" ∉ buildFetchArgs req outDir fp se := by
  constructor
  · refine ⟨baseArgs req outDir,
      subtitleArgs req ++ ffmpegLocationArgs fp ++ sponsorblockArgs se, ?_⟩
    rw [buildFetchArgs, qualityArgs_of_audio hao]
    simp
  · intro hmem
    rcases mem_buildFetchArgs_elim hmem with h | h | h | h | h
    · rcases mem_baseArgs h with h | h | h | h | h | h
      · exact absurd h (by decide)
      · exact hurl h.symm
      · exact absurd h (by decide)
      · exact htmpl h.symm
      · exact absurd h (by decide)
      · exact (MediaFormat.toStr_ne_flags req.format).1 h.symm
    · rw [qualityArgs_of_audio hao] at h
      rcases List.mem_cons.mp h with h | h
      · exact absurd h (by decide)
      rcases List.mem_cons.mp h with h | h
      · exact absurd h (by decide)
      rcases List.mem_cons.mp h with h | h
      · exact (MediaFormat.toStr_ne_flags req.format).1 h.symm
      · exact List.not_mem_nil _ h
    · rcases mem_subtitleArgs h with h | h | h | h
      · exact absurd h (by decide)
      · exact absurd h (by decide)
      · exact hlang h.symm
      · exact absurd h (by decide)
    · rcases mem_ffmpegLocationArgs h with h | h
      · exact absurd h (by decide)
      · exact hfp h
    · rcases mem_sponsorblockArgs h with h | h
      · exact absurd h (by decide)
      · exact absurd h (by decide)

/-- Witness for C2: audio-only with the custom quality string `"720p"`. -/
theorem fetch_audio_only_precedence_witness :
    (∃ l₁ l₂, buildFetchArgs ⟨"http://x/v", .mp3, some "720p", false, some ["en"], false,
          true, none, none⟩ "d" none none
        = l₁ ++ ["-x", "--audio-format", "mp3"] ++ l₂)
      ∧ "-f" ∉ buildFetchArgs ⟨"http://x/v", .mp3, some "720p", false, some ["en"], false,
          true, none, none⟩ "d" none none :=
  fetch_audio_only_precedence
    ⟨"http://x/v", .mp3, some "720p", false, some ["en"], false, true, none, none⟩
    "d" none none rfl (by decide) (by decide) (by decide) (by decide)

/-- C3: with `subtitles = false`, none of `--write-subs`, `--sub-langs`,
`--embed-subs` appears in the built list, for every `embedSubs` and
`subtitleLangs` value; the disequality hypotheses only rule out the caller
smuggling those literal tokens in through a free string field. -/
theorem fetch_no_subtitle_flags (req : DownloadRequest) (outDir : String)
    (fp se : Option String) (hsub : req.subtitles = false)
    (hurl : req.url ∉ (["--write-subs", "--sub-langs", "--embed-subs"] : List String))
    (htmpl : outtmpl outDir req.filename_template
      ∉ (["--write-subs", "--sub-langs", "--embed-subs"] : List String))
    (hq : ∀ x ∈ (["--write-subs", "--sub-langs", "--embed-subs"] : List String),
      req.quality ≠ some x)
    (hfp : ∀ x ∈ (["--write-subs", "--sub-langs", "--embed-subs"] : List String),
      fp ≠ some x) :
    ∀ x ∈ (["--write-subs", "--sub-langs", "--embed-subs"] : List String),
      x ∉ buildFetchArgs req outDir fp se := by
  intro x hx hmem
  have hxOr : x = "--write-subs" ∨ x = "--sub-langs" ∨ x = "--embed-subs" := by
    rcases List.mem_cons.mp hx with h | h
    · exact Or.inl h
    rcases List.mem_cons.mp h with h | h
    · exact Or.inr (Or.inl h)
    rcases List.mem_cons.mp h with h | h
    · exact Or.inr (Or.inr h)
    · exact absurd h (List.not_mem_nil _)
  have hxne : x ≠ "yt-dlp" ∧ x ≠ "-o" ∧ x ≠ "--merge-output-format" ∧ x ≠ "-x"
      ∧ x ≠ "--audio-format" ∧ x ≠ "-f" ∧ x ≠ "bestvideo+bestaudio/best"
      ∧ x ≠ "--ffmpeg-location" ∧ x ≠ "--sponsorblock-remove"
      ∧ x ≠ "sponsor,intro,outro" := by
    rcases hxOr with h | h | h <;> rw [h] <;>
      exact ⟨by decide, by decide, by decide, by decide, by decide, by decide, by decide,
        by decide, by decide, by decide⟩
  have hxfmt : req.format.toStr ≠ x := by
    have hf := MediaFormat.toStr_ne_flags req.format
    rcases hxOr with h | h | h <;> rw [h]
    · exact hf.2.1
    · exact hf.2.2.1
    · exact hf.2.2.2
  rcases mem_buildFetchArgs_elim hmem with h | h | h | h | h
  · rcases mem_baseArgs h with h | h | h | h | h | h
    · exact hxne.1 h
    · exact hurl (h ▸ hx)
    · exact hxne.2.1 h
    · exact htmpl (h ▸ hx)
    · exact hxne.2.2.1 h
    · exact hxfmt h.symm
  · rcases mem_qualityArgs h with h | h | h | h | h | h
    · exact hxne.2.2.2.1 h
    · exact hxne.2.2.2.2.1 h
    · exact hxfmt h.symm
    · exact hxne.2.2.2.2.2.1 h
    · exact hxne.2.2.2.2.2.2.1 h
    · exact hq x hx h
  · rw [subtitleArgs_of_off hsub] at h
    exact List.not_mem_nil x h
  · rcases mem_ffmpegLocationArgs h with h | h
    · exact hxne.2.2.2.2.2.2.2.1 h
    · exact hfp x hx h
  · rcases mem_sponsorblockArgs h with h | h
    · exact hxne.2.2.2.2.2.2.2.2.1 h
    · exact hxne.2.2.2.2.2.2.2.2.2 h

/-- Witness for C3: subtitles off but `embedSubs = true` and explicit
subtitle languages — no subtitle flag appears. -/
theorem fetch_no_subtitle_flags_witness :
    "--write-subs" ∉ buildFetchArgs
        ⟨"http://x/v", .mp4, some "best", false, some ["en", "de"], true, false, none, none⟩
        "d" none none
      ∧ "--sub-langs" ∉ buildFetchArgs
        ⟨"http://x/v", .mp4, some "best", false, some ["en", "de"], true, false, none, none⟩
        "d" none none
      ∧ "--embed-subs" ∉ buildFetchArgs
        ⟨"http://x/v", .mp4, some "best", false, some ["en", "de"], true, false, none, none⟩
        "d" none none := by
  refine ⟨?_, ?_, ?_⟩ <;>
    exact fetch_no_subtitle_flags
      ⟨"http://x/v", .mp4, some "best", false, some ["en", "de"], true, false, none, none⟩
      "d" none none rfl (by decide) (by decide) (by decide) (by decide) _ (by decide)

theorem firstMedia_eq_none :
    ∀ entries : List (String × List String),
      (∀ e ∈ entries, ∀ g ∈ e.2, isMediaFile g = false) → firstMedia entries = none := by
  intro entries
  induction entries with
  | nil => intro _; rfl
  | cons hd tl ih =>
      intro h
      obtain ⟨root, files⟩ := hd
      have hfind : files.find? isMediaFile = none := by
        apply List.find?_eq_none.mpr
        intro g hg
        simp [h (root, files) (List.mem_cons_self _ _) g hg]
      simp only [firstMedia, hfind]
      exact ih fun e he => h e (List.mem_cons_of_mem _ he)

theorem find?_first_in_append (p : String → Bool) (f : String) (fs2 : List String) :
    ∀ fs1 : List String, (∀ g ∈ fs1, p g = false) → p f = true →
      (fs1 ++ f :: fs2).find? p = some f := by
  intro fs1
  induction fs1 with
  | nil => intro _ hf; simpa [List.find?] using List.find?_cons_of_pos fs2 hf
  | cons a t ih =>
      intro h1 hf
      rw [List.cons_append, List.find?_cons_of_neg]
      · exact ih (fun g hg => h1 g (List.mem_cons_of_mem _ hg)) hf
      · simp [h1 a (List.mem_cons_self _ _)]

theorem firstMedia_found (r f : String) (fs1 fs2 : List String)
    (post : List (String × List String)) (h1 : ∀ g ∈ fs1, isMediaFile g = false)
    (hf : isMediaFile f = true) :
    ∀ pre : List (String × List String),
      (∀ e ∈ pre, ∀ g ∈ e.2, isMediaFile g = false) →
      firstMedia (pre ++ (r, fs1 ++ f :: fs2) :: post) = some (osPathJoin r f) := by
  intro pre
  induction pre with
  | nil =>
      intro _
      simp only [List.nil_append, firstMedia, find?_first_in_append isMediaFile f fs2 fs1 h1 hf]
  | cons hd tl ih =>
      intro hpre
      obtain ⟨root0, files0⟩ := hd
      have hfind : files0.find? isMediaFile = none := by
        apply List.find?_eq_none.mpr
        intro g hg
        simp [hpre (root0, files0) (List.mem_cons_self _ _) g hg]
      rw [List.cons_append]
      simp only [firstMedia, hfind]
      exact ih fun e he => hpre e (List.mem_cons_of_mem _ he)

/-- C7: the artifact locator is total. If the walk stream contains a file
with a recognised media extension, the result is the first one in walk
order joined onto its directory; otherwise (for instance a workspace with
only a `.json` metadata file) the result is the workspace directory path
itself, not an error. -/
theorem locate_artifact_total (outDir : String) (entries : List (String × List String)) :
    ((∀ e ∈ entries, ∀ g ∈ e.2, isMediaFile g = false) →
        locateArtifact outDir entries = outDir)
      ∧ (∀ (pre : List (String × List String)) (r f : String) (fs1 fs2 : List String)
            (post : List (String × List String)),
          entries = pre ++ (r, fs1 ++ f :: fs2) :: post →
          (∀ e ∈ pre, ∀ g ∈ e.2, isMediaFile g = false) →
          (∀ g ∈ fs1, isMediaFile g = false) →
          isMediaFile f = true →
          locateArtifact outDir entries = osPathJoin r f) := by
  constructor
  · intro h
    unfold locateArtifact
    rw [firstMedia_eq_none entries h]
  · intro pre r f fs1 fs2 post hsplit hpre h1 hf
    unfold locateArtifact
    rw [hsplit, firstMedia_found r f fs1 fs2 post h1 hf pre hpre]

/-- Witness for C7: a workspace whose walk stream holds only a `.json`
file yields the directory itself; adding media files yields the first one
in walk order. -/
theorem locate_artifact_total_witness :
    locateArtifact "ws" [("ws", ["meta.json"])] = "ws"
      ∧ locateArtifact "ws" [("ws", ["meta.json", "a.mp4", "b.mp3"])] = "ws/a.mp4" := by
  constructor
  · exact (locate_artifact_total "ws" [("ws", ["meta.json"])]).1 (by decide)
  · exact ((locate_artifact_total "ws" [("ws", ["meta.json", "a.mp4", "b.mp3"])]).2
      [] "ws" "a.mp4" ["meta.json"] ["b.mp3"] [] rfl (by decide) (by decide)
      (by decide)).trans (by decide)

/-- C5: for every convert request whose input exists, the computed output
path is the input with its extension stripped plus `_conv.` plus the
output format (concretely `a/video.mp4` with `mp3` gives
`a/video_conv.mp3`), and the invoked command is exactly the tool name,
`-y`, `-i` with the input path, then a `-ss <start>` segment exactly when
start is set (non-empty, by Python truthiness), then a `-to <end>` segment
exactly when end is set, then the extra arguments verbatim, with the
output path as the last element. -/
theorem convert_builder_command (req : ConvertRequest) (fe : String → Bool)
    (proc : ProcOutcome) (recOk : Bool) (hfe : fe req.input_path = true) :
    convertOutPath req = splitextBase req.input_path ++ "_conv." ++ req.output_format.toStr
      ∧ convertOutPath ⟨"a/video.mp4", .mp3, none, none, none⟩ = "a/video_conv.mp3"
      ∧ ∃ sl el xl : List String,
          convertCmd req (convertOutPath req)
            = ["ffmpeg", "-y", "-i", req.input_path] ++ sl ++ el ++ xl ++ [convertOutPath req]
          ∧ (∀ s, req.start = some s → s ≠ "" → sl = ["-ss", s])
          ∧ (req.start = none ∨ req.start = some "" → sl = [])
          ∧ (∀ e, req.«end» = some e → e ≠ "" → el = ["-to", e])
          ∧ (req.«end» = none ∨ req.«end» = some "" → el = [])
          ∧ (∀ xs, req.extra_args = some xs → xl = xs)
          ∧ (req.extra_args = none → xl = [])
          ∧ (∃ rest, (ffmpeg_convert fe proc recOk req).snd
              = Effect.runProcess (["ffmpeg", "-y", "-i", req.input_path]
                  ++ sl ++ el ++ xl ++ [convertOutPath req]) :: rest) := by
  refine ⟨rfl, by decide, ?_⟩
  refine ⟨(match req.start with | some s => if s = "" then [] else ["-ss", s] | none => []),
          (match req.«end» with | some e => if e = "" then [] else ["-to", e] | none => []),
          (match req.extra_args with | some xs => xs | none => []),
          rfl, ?_, ?_, ?_, ?_, ?_, ?_, ?_⟩
  · intro s hs hs0
    rw [hs]
    simp [hs0]
  · rintro (h | h) <;> rw [h] <;> simp
  · intro e he he0
    rw [he]
    simp [he0]
  · rintro (h | h) <;> rw [h] <;> simp
  · intro xs hx
    rw [hx]
  · intro hx
    rw [hx]
  · unfold ffmpeg_convert
    rw [hfe]
    simp only [if_true]
    cases hr : runCmd (convertCmd req (convertOutPath req)) proc with
    | error d =>
        refine ⟨[], ?_⟩
        simp only [hr]
        rfl
    | ok o =>
        refine ⟨[Effect.recordAttempt "conversions" recOk], ?_⟩
        simp only [hr]
        rfl

/-- Witness for C5: the spec's end-to-end trim scenario on `a/video.mp4`,
and the same input with no trim window and no extra arguments. -/
theorem convert_builder_command_witness :
    convertCmd ⟨"a/video.mp4", .wav, some "00:00:05", some "00:00:15", some ["-vn"]⟩
        (convertOutPath ⟨"a/video.mp4", .wav, some "00:00:05", some "00:00:15", some ["-vn"]⟩)
      = ["ffmpeg", "-y", "-i", "a/video.mp4", "-ss", "00:00:05", "-to", "00:00:15",
         "-vn", "a/video_conv.wav"]
    ∧ convertCmd ⟨"a/video.mp4", .mp3, none, none, none⟩
        (convertOutPath ⟨"a/video.mp4", .mp3, none, none, none⟩)
      = ["ffmpeg", "-y", "-i", "a/video.mp4", "a/video_conv.mp3"] := by
  constructor
  · obtain ⟨sl, el, xl, hcmd, hsl, -, hel, -, hxl, -, -⟩ :=
      (convert_builder_command
        ⟨"a/video.mp4", .wav, some "00:00:05", some "00:00:15", some ["-vn"]⟩
        (fun _ => true) ⟨0, ""⟩ true rfl).2.2
    rw [hcmd, hsl "00:00:05" rfl (by decide), hel "00:00:15" rfl (by decide),
      hxl ["-vn"] rfl]
    decide
  · obtain ⟨sl, el, xl, hcmd, -, hslE, -, helE, -, hxlE, -⟩ :=
      (convert_builder_command ⟨"a/video.mp4", .mp3, none, none, none⟩
        (fun _ => true) ⟨0, ""⟩ true rfl).2.2
    rw [hcmd, hslE (Or.inl rfl), helE (Or.inl rfl), hxlE rfl]
    decide

/-- C6: when the input path does not exist, the convert operation fails
with 404 "Input file not found" and its effect trace is empty: no process
is spawned and no outcome record is attempted. -/
theorem convert_missing_input_no_effects (fe : String → Bool) (proc : ProcOutcome)
    (recOk : Bool) (req : ConvertRequest) (h : fe req.input_path = false) :
    (ffmpeg_convert fe proc recOk req).fst
        = Except.error ⟨404, "Input file not found"⟩
      ∧ (ffmpeg_convert fe proc recOk req).snd = [] := by
  constructor <;> simp [ffmpeg_convert, h]

/-- Witness for C6: a request whose input the filesystem lacks. -/
theorem convert_missing_input_no_effects_witness :
    (ffmpeg_convert (fun _ => false) ⟨0, ""⟩ true ⟨"missing.mp4", .mp3, none, none, none⟩).fst
        = Except.error ⟨404, "Input file not found"⟩
      ∧ (ffmpeg_convert (fun _ => false) ⟨0, ""⟩ true
          ⟨"missing.mp4", .mp3, none, none, none⟩).snd = [] :=
  convert_missing_input_no_effects (fun _ => false) ⟨0, ""⟩ true
    ⟨"missing.mp4", .mp3, none, none, none⟩ rfl

/-- C8: when the external invocation succeeds, the outcome of the
best-effort record write (`recOk`) has no bearing on the returned result —
both pipelines return their result path for either value of `recOk` — and
the trace holds exactly one record attempt, so the recorder is never
retried. -/
theorem recorder_failure_swallowed (req : DownloadRequest) (creq : ConvertRequest)
    (outDir : String) (fp se : Option String) (proc cproc : ProcOutcome)
    (recOk : Bool) (walkEntries : List (String × List String)) (fe : String → Bool)
    (hrun : proc.returncode = 0) (hcrun : cproc.returncode = 0)
    (hfe : fe creq.input_path = true) :
    (yt_dlp_download outDir fp se proc recOk walkEntries req).fst
        = Except.ok (locateArtifact outDir walkEntries)
      ∧ countRecords (yt_dlp_download outDir fp se proc recOk walkEntries req).snd = 1
      ∧ (ffmpeg_convert fe cproc recOk creq).fst = Except.ok (convertOutPath creq)
      ∧ countRecords (ffmpeg_convert fe cproc recOk creq).snd = 1 := by
  refine ⟨?_, ?_, ?_, ?_⟩ <;>
    simp [yt_dlp_download, ffmpeg_convert, runCmd, hrun, hcrun, hfe, countRecords,
      List.countP_cons, List.countP_nil]

/-- Witness for C8: a failing recorder (`recOk = false`) during successful
fetch and convert runs still yields the result paths. -/
theorem recorder_failure_swallowed_witness :
    (yt_dlp_download "ws" none none ⟨0, "log"⟩ false [("ws", ["a.mp4"])]
        ⟨"http://x/v", .mp4, some "best", false, some ["en"], false, false, none, none⟩).fst
      = Except.ok "ws/a.mp4"
    ∧ countRecords (yt_dlp_download "ws" none none ⟨0, "log"⟩ false [("ws", ["a.mp4"])]
        ⟨"http://x/v", .mp4, some "best", false, some ["en"], false, false, none, none⟩).snd
      = 1
    ∧ (ffmpeg_convert (fun _ => true) ⟨0, ""⟩ false
        ⟨"in.mp4", .mp3, none, none, none⟩).fst = Except.ok "in_conv.mp3"
    ∧ countRecords (ffmpeg_convert (fun _ => true) ⟨0, ""⟩ false
        ⟨"in.mp4", .mp3, none, none, none⟩).snd = 1 := by
  have h := recorder_failure_swallowed
    ⟨"http://x/v", .mp4, some "best", false, some ["en"], false, false, none, none⟩
    ⟨"in.mp4", .mp3, none, none, none⟩ "ws" none none ⟨0, "log"⟩ ⟨0, ""⟩ false
    [("ws", ["a.mp4"])] (fun _ => true) rfl rfl rfl
  exact ⟨h.1.trans (congrArg Except.ok (by decide)), h.2.1,
    h.2.2.1.trans (congrArg Except.ok (by decide)), h.2.2.2⟩

/-- Counterexample to C9 as stated: a non-zero exit with empty captured
output does not surface the (empty) truncated output — the code falls back
to the exception description string (`e.stdout[-2000:] if e.stdout else
str(e)`). -/
theorem runCmd_empty_output_counterexample :
    runCmd ["yt-dlp"] ⟨1, ""⟩
        = Except.error "Command '['yt-dlp']' returned non-zero exit status 1."
      ∧ runCmd ["yt-dlp"] ⟨1, ""⟩ ≠ Except.error (lastChars 2000 "") := by
  constructor
  · rfl
  · intro h
    exact absurd (Except.error.inj h) (by decide)

theorem lastChars_is_suffix (n : Nat) (s : String) : ∃ pre, s = pre ++ lastChars n s := by
  obtain ⟨data⟩ := s
  refine ⟨String.mk (data.take (data.length - n)), ?_⟩
  show String.mk data
    = String.mk (data.take (data.length - n)) ++ String.mk (data.drop (data.length - n))
  rw [show String.mk (data.take (data.length - n)) ++ String.mk (data.drop (data.length - n))
      = String.mk (data.take (data.length - n) ++ data.drop (data.length - n)) from rfl]
  rw [List.take_append_drop]

theorem lastChars_length_le (n : Nat) (s : String) : (lastChars n s).toList.length ≤ n := by
  show (s.toList.drop (s.toList.length - n)).length ≤ n
  rw [List.length_drop]
  omega

/-- C9 (amended): on a zero exit the full combined output is returned
unmodified; on a non-zero exit with non-empty captured output the surfaced
detail is the last at-most-2000 characters of that output (a suffix of it);
on a non-zero exit with empty captured output the surfaced detail is the
`CalledProcessError` description string instead. -/
theorem runCmd_truncation (cmd : List String) (r : ProcOutcome) :
    (r.returncode = 0 → runCmd cmd r = Except.ok r.output)
      ∧ (r.returncode ≠ 0 → r.output ≠ "" →
          runCmd cmd r = Except.error (lastChars 2000 r.output)
            ∧ (∃ pre, r.output = pre ++ lastChars 2000 r.output)
            ∧ (lastChars 2000 r.output).toList.length ≤ 2000)
      ∧ (r.returncode ≠ 0 → r.output = "" →
          runCmd cmd r = Except.error (calledProcessErrorStr cmd r.returncode)) := by
  refine ⟨?_, ?_, ?_⟩
  · intro h
    simp [runCmd, h]
  · intro h h2
    exact ⟨by simp [runCmd, h, h2], lastChars_is_suffix 2000 r.output,
      lastChars_length_le 2000 r.output⟩
  · intro h h2
    simp [runCmd, h, h2]

/-- Witness for the amended C9: a failed run with 3 characters of output
surfaces them whole; a successful run returns its output unmodified. -/
theorem runCmd_truncation_witness :
    runCmd ["x"] ⟨2, "abc"⟩ = Except.error "abc"
      ∧ runCmd ["x"] ⟨0, "abc"⟩ = Except.ok "abc" := by
  constructor
  · exact (((runCmd_truncation ["x"] ⟨2, "abc"⟩).2.1 (by decide) (by decide)).1).trans
      (congrArg Except.error (by decide))
  · exact (runCmd_truncation ["x"] ⟨0, "abc"⟩).1 rfl
